import Mathlib

/-!
Shallow embedding of the real-time signal-chain engine of `src/src/main.rs`
(synth-rs): the DSP node data model, the beat clock, the chain resolver
(`update_sound`), and the audio render callback (`audio`).

Modelling conventions:
- Rust `f32` / `f64` sample and parameter arithmetic is modelled exactly over
  `ℚ` (the source performs only field operations and comparisons on the values
  the claims are about; floating-point rounding is abstracted away).
- A Rust panic (an `unwrap` on a failed send, or an out-of-bounds index) is
  modelled as `Except.error` with a message naming the panic; normal returns
  are `Except.ok`.
- `stream.send(closure)` enqueues a parameter-update command for the render
  callback.  The closures sent in the source are first-order mutations of the
  `Audio` state, so they are modelled by the inductive `Cmd` below, and the
  availability of the underlying transport by a boolean `sendOk`: when the
  transport is down, `send` returns an error, which the source immediately
  `unwrap`s.
- `sin` is transcendental, hence not a function on `ℚ`; the render callback is
  parametrised by `sine2pi : ℚ → ℚ` standing for `fun x => Real.sin (2*π*x)`,
  with its amplitude bound `|sine2pi x| ≤ 1` taken as a hypothesis where a
  claim needs it.
- Cards carry geometry fields (`x`, `y`, ...) that the resolver never reads;
  the chain is therefore modelled as the list of the cards' `class` fields.
-/

/-- The render-context state (struct `Audio`, main.rs lines 24-29). -/
structure Audio where
  phase : ℚ
  hz : ℚ
  playing : Bool
  envelope : ℚ
  deriving DecidableEq

/-- Step sequencer node (struct `Sequencer`, main.rs lines 34-38). -/
structure Sequencer where
  sequence : List ℚ
  step : Nat
  deriving DecidableEq

/-- ADSR envelope node (struct `Envelope`, main.rs lines 48-54). -/
structure Envelope where
  attack : ℚ
  decay : ℚ
  sustain : ℚ
  release : ℚ
  deriving DecidableEq

/-- Feedback delay node (struct `Delay`, main.rs lines 56-63). -/
structure Delay where
  delay_time : ℚ
  feedback : ℚ
  wet : ℚ
  buffer : List ℚ
  write_index : Nat
  deriving DecidableEq

/-- Node kind tag (enum `CardClass`, main.rs lines 65-72).  The resolver only
reads the `class` field of each card, so the chain is a `List CardClass`. -/
inductive CardClass where
  | Oscillator : CardClass
  | Sequencer : Sequencer → CardClass
  | Envelope : Envelope → CardClass
  | Delay : Delay → CardClass
  deriving DecidableEq

/-- `matches!(card.class, CardClass::Oscillator(_))` (main.rs line 462). -/
def CardClass.isOscillator : CardClass → Bool
  | .Oscillator => true
  | _ => false

/-- `matches!(card.class, CardClass::Sequencer(_))` (main.rs line 457). -/
def CardClass.isSequencer : CardClass → Bool
  | .Sequencer _ => true
  | _ => false

/-- `matches!(card.class, CardClass::Envelope(_))` (main.rs line 467). -/
def CardClass.isEnvelope : CardClass → Bool
  | .Envelope _ => true
  | _ => false

/-- `matches!(card.class, CardClass::Delay(_))` (main.rs line 472). -/
def CardClass.isDelay : CardClass → Bool
  | .Delay _ => true
  | _ => false

/-- `Sequencer::next_value` (main.rs lines 41-45):
`let value = self.sequence[self.step]; self.step = (self.step + 1) % self.sequence.len(); value`.
The index `self.sequence[self.step]` panics when `step` is out of bounds (in
particular whenever `sequence` is empty), modelled by `Except.error`. -/
def Sequencer.next_value (s : Sequencer) : Except String (ℚ × Sequencer) :=
  if h : s.step < s.sequence.length then
    .ok (s.sequence.get ⟨s.step, h⟩,
         { sequence := s.sequence, step := (s.step + 1) % s.sequence.length })
  else
    .error "index out of bounds"

/-- The beat-clock part of `update` (main.rs lines 362-371):
`beat_duration = 60.0 / bpm; beat_time += elapsed; if beat_time >= beat_duration { beat_time = 0.0 }`.
Returns the new `beat_time`. -/
def clock_update (bpm beat_time elapsed : ℚ) : ℚ :=
  let beat_duration := 60 / bpm
  let bt := beat_time + elapsed
  if beat_duration ≤ bt then 0 else bt

/-- The ADSR computation of `update_sound` (main.rs lines 512-522), as a
function of the envelope parameters, the beat duration and the beat time. -/
def envelopeValue (env : Envelope) (beat_duration beat_time : ℚ) : ℚ :=
  if beat_time < beat_duration * env.attack then
    min (beat_time / (beat_duration * env.attack)) 1
  else if beat_time < beat_duration * (env.attack + env.decay) then
    let decay_time := beat_time - beat_duration * env.attack
    env.sustain + (1 - env.sustain) * (1 - decay_time / (beat_duration * env.decay))
  else if beat_time < beat_duration * (env.attack + env.decay + env.release) then
    let release_time := beat_time - beat_duration * (env.attack + env.decay)
    env.sustain * (1 - release_time / (beat_duration * env.release))
  else
    0

/-- `envelopeValue` instrumented to report (as `none`) any division whose
divisor is zero in the branch actually taken.  Over `ℚ` a division by zero is
total, so this checked variant is how "the computation never divides by a
zero-length phase" is made a statement. -/
def envelopeValueChecked (env : Envelope) (beat_duration beat_time : ℚ) : Option ℚ :=
  if beat_time < beat_duration * env.attack then
    if beat_duration * env.attack = 0 then none
    else some (min (beat_time / (beat_duration * env.attack)) 1)
  else if beat_time < beat_duration * (env.attack + env.decay) then
    if beat_duration * env.decay = 0 then none
    else
      let decay_time := beat_time - beat_duration * env.attack
      some (env.sustain + (1 - env.sustain) * (1 - decay_time / (beat_duration * env.decay)))
  else if beat_time < beat_duration * (env.attack + env.decay + env.release) then
    if beat_duration * env.release = 0 then none
    else
      let release_time := beat_time - beat_duration * (env.attack + env.decay)
      some (env.sustain * (1 - release_time / (beat_duration * env.release)))
  else
    some 0

/-- A parameter-update command: the body of a closure passed to
`model.stream.send(...)` in `update_sound` (main.rs lines 475-534).  Each
closure mutates one field of the render-context `Audio` state. -/
inductive Cmd where
  | setPlaying : Bool → Cmd
  | setHz : ℚ → Cmd
  | incHz : ℚ → Cmd
  | setEnvelope : ℚ → Cmd
  deriving DecidableEq

/-- Applying a command to the render-context state (the closure bodies at
main.rs lines 476, 478, 491, 498, 526, 532). -/
def Cmd.apply : Cmd → Audio → Audio
  | .setPlaying b, a => { a with playing := b }
  | .setHz v, a => { a with hz := v }
  | .incHz d, a => { a with hz := a.hz + d }
  | .setEnvelope v, a => { a with envelope := v }

/-- `model.stream.send(..)` followed by the source's `.unwrap()`: when the
transport is available (`sendOk`) the command is enqueued; otherwise `send`
returns an `Err`, on which `unwrap` panics (modelled as `Except.error`). -/
def sendCmd (sendOk : Bool) (c : Cmd) : Except String Cmd :=
  if sendOk then .ok c else .error "send failed"

/-- `Iterator::position` as the source uses it on the chain (main.rs lines
455-473): index of the first card whose class satisfies the predicate. -/
def position (p : CardClass → Bool) : List CardClass → Option Nat
  | [] => none
  | c :: rest => if p c then some 0 else (position p rest).map (· + 1)

/-- The sequencer block of `update_sound` (main.rs lines 481-500): on a beat
boundary (`beat_time == 0.0`) the first sequencer card advances and a
`setHz (440 * multiplier)` command is sent; with no sequencer in the chain an
`incHz hz_increment` drift command is sent instead.  Returns the commands
sent by this block and the chain with the sequencer mutated in place. -/
def sequencerStage (sendOk : Bool) (hz_increment beat_time : ℚ)
    (chain : List CardClass) (sequencer_index : Option Nat) :
    Except String (List Cmd × List CardClass) :=
  match sequencer_index with
  | some index =>
    match chain.get? index with
    | some (.Sequencer seq) =>
      if beat_time = 0 then do
        let r ← seq.next_value
        let c ← sendCmd sendOk (.setHz (440 * r.1))
        pure ([c], chain.set index (.Sequencer r.2))
      else pure ([], chain)
    | _ => pure ([], chain)
  | none => do
    let c ← sendCmd sendOk (.incHz hz_increment)
    pure ([c], chain)

/-- The envelope block of `update_sound` (main.rs lines 502-534): with an
envelope card present the ADSR value at the current beat time is sent;
otherwise `setEnvelope 1` is sent (gain forced to full). -/
def envelopeStage (sendOk : Bool) (beat_duration beat_time : ℚ)
    (chain2 : List CardClass) (envelope_index : Option Nat) :
    Except String (List Cmd) :=
  match envelope_index with
  | some index =>
    match chain2.get? index with
    | some (.Envelope env) => do
      let c ← sendCmd sendOk (.setEnvelope (envelopeValue env beat_duration beat_time))
      pure [c]
    | _ => pure []
  | none => do
    let c ← sendCmd sendOk (.setEnvelope 1)
    pure [c]

/-- The chain resolver `update_sound` (main.rs lines 451-542).  Inputs:
`sendOk` (transport availability), `hz_increment` (the precomputed
`1.0 * app.time.sin()` drift increment, line 452), `bpm`, `beat_time`, and the
chain (as the list of card classes).  Output on success: the FIFO list of
commands pushed to the bridge, and the chain with the sequencer `step`
mutated in place; output on a panic: the panic message.  The delay branch of
the source (lines 535-541) scans for a `Delay` card but its body is commented
out, so it sends nothing and mutates nothing. -/
def update_sound (sendOk : Bool) (hz_increment bpm beat_time : ℚ)
    (chain : List CardClass) : Except String (List Cmd × List CardClass) := do
  let beat_duration := 60 / bpm
  let sequencer_index := position (·.isSequencer) chain
  let oscillator_index := position (·.isOscillator) chain
  let envelope_index := position (·.isEnvelope) chain
  let _delay_index := position (·.isDelay) chain
  let c1 ← sendCmd sendOk (.setPlaying oscillator_index.isSome)
  let (c2, chain2) ← sequencerStage sendOk hz_increment beat_time chain sequencer_index
  let c3 ← envelopeStage sendOk beat_duration beat_time chain2 envelope_index
  pure (c1 :: (c2 ++ c3), chain2)

/-- `max_volume` (main.rs line 213). -/
def max_volume : ℚ := 1 / 2

/-- The per-buffer volume of the render callback (main.rs lines 214-218):
`if playing { max_volume * envelope.min(1.0) } else { 0.0 }`. -/
def Audio.volume (a : Audio) : ℚ :=
  if a.playing then max_volume * min a.envelope 1 else 0

/-- One phase-accumulator step of the render callback (main.rs lines 222-225):
`phase += hz / sample_rate; if phase >= 1.0 { phase -= 1.0 }`. -/
def stepPhase (phase hz sample_rate : ℚ) : ℚ :=
  let p := phase + hz / sample_rate
  if 1 ≤ p then p - 1 else p

/-- The frame loop of the render callback (main.rs lines 220-229): for each of
`nframes` frames, compute `sine_amp = sin(2π·phase)`, advance the phase, and
write `sine_amp * volume` to each of `channels` channels.  Returns the frames
and the final phase. -/
def renderFrames (sine2pi : ℚ → ℚ) (hz sample_rate vol : ℚ) (channels : Nat) :
    Nat → ℚ → List (List ℚ) × ℚ
  | 0, phase => ([], phase)
  | n + 1, phase =>
    let sine_amp := sine2pi phase
    let frame := List.replicate channels (sine_amp * vol)
    let rest := renderFrames sine2pi hz sample_rate vol channels n
      (stepPhase phase hz sample_rate)
    (frame :: rest.1, rest.2)

/-- The render callback `audio` (main.rs lines 211-230): computes the buffer
volume once, then runs the frame loop, returning the written buffer and the
updated state (only `phase` is mutated by the loop). -/
def audio (sine2pi : ℚ → ℚ) (a : Audio) (sample_rate : ℚ) (nframes channels : Nat) :
    List (List ℚ) × Audio :=
  let r := renderFrames sine2pi a.hz sample_rate a.volume channels nframes a.phase
  (r.1, { a with phase := r.2 })

/-- The sequencer card built in `model` (main.rs lines 155-162):
`sequence: vec![0.8, 1.0, 1.2, 1.0], step: 0`. -/
def initial_sequencer : Sequencer :=
  { sequence := [4/5, 1, 6/5, 1], step := 0 }

/-- Modelled from the spec: the per-sample read index of the feedback delay
line.  The function `update_delay` is absent from src/ (only the commented-out
call site at main.rs line 539 and the `Delay` struct remain), so the delay
processing is modelled from spec section 4.4: the delayed sample is the input
of `delay_time` seconds (`delay_time · sample_rate` samples) ago, read from
the circular buffer at `(write_index − delay_samples) mod len`. -/
def Delay.read_index (d : Delay) (sample_rate : ℚ) : Nat :=
  let len := d.buffer.length
  let delay_samples := (⌊d.delay_time * sample_rate⌋).toNat
  (d.write_index + len - delay_samples % len) % len

/-- Modelled from the spec: the delayed sample of the feedback delay line
(spec section 4.4).  A delay of zero samples yields the current input itself
(the sample zero seconds in the past is the dry sample), which is the
degenerate case named by spec section 8. -/
def Delay.delayed (d : Delay) (sample_rate dry : ℚ) : ℚ :=
  if (⌊d.delay_time * sample_rate⌋).toNat = 0 then dry
  else d.buffer.getD (d.read_index sample_rate) 0

/-- Modelled from the spec: one per-sample step of the feedback delay line
(spec section 4.4; `update_delay` is absent from src/).  Output is
`dry·(1−wet) + delayed·wet`; the slot at `write_index` is overwritten with
`dry + delayed·feedback`; the write cursor advances circularly. -/
def Delay.process (d : Delay) (sample_rate dry : ℚ) : ℚ × Delay :=
  let delayed := d.delayed sample_rate dry
  let output := dry * (1 - d.wet) + delayed * d.wet
  ( output,
    { d with
      buffer := d.buffer.set d.write_index (dry + delayed * d.feedback),
      write_index := (d.write_index + 1) % d.buffer.length } )

/-! ## Theorems -/

/-- C4: the per-tick clock update adds the elapsed seconds to `beat_time`
and, whenever the result reaches `beat_duration = 60/bpm`, hard-resets
`beat_time` to exactly 0, discarding the overshoot residue; below the
boundary, the accumulated sum is kept unchanged — for every elapsed duration
and every positive bpm. -/
theorem clock_update_hard_reset (bpm beat_time elapsed : ℚ) (hbpm : 0 < bpm) :
    (60 / bpm ≤ beat_time + elapsed →
      clock_update bpm beat_time elapsed = 0) ∧
    (beat_time + elapsed < 60 / bpm →
      clock_update bpm beat_time elapsed = beat_time + elapsed) := by
  constructor
  · intro hc
    simp only [clock_update]
    rw [if_pos hc]
  · intro hc
    simp only [clock_update]
    rw [if_neg (not_le.mpr hc)]

/-- Witness for C4 at bpm = 120, beat_time = 0, elapsed = 1: the beat
duration 1/2 is exceeded, so the clock hard-resets to 0. -/
theorem clock_update_hard_reset_witness :
    (0 : ℚ) < 120 ∧ (60 / 120 : ℚ) ≤ 0 + 1 ∧ clock_update 120 0 1 = 0 :=
  ⟨by norm_num, by norm_num,
    (clock_update_hard_reset 120 0 1 (by norm_num)).1 (by norm_num)⟩

/-- C5: one sequencer advance returns `sequence[step]` and increments the
step modulo the sequence length; for the source's sequence
`[0.8, 1.0, 1.2, 1.0]`, four advances return the step index to its original
value and the next advance returns `0.8` again. -/
theorem sequencer_advance_cycles :
    (∀ s : Sequencer, s.step < s.sequence.length →
      s.next_value = .ok (s.sequence.getD s.step 0,
        { sequence := s.sequence, step := (s.step + 1) % s.sequence.length })) ∧
    (initial_sequencer.next_value.bind (fun r1 =>
        r1.2.next_value.bind (fun r2 =>
          r2.2.next_value.bind (fun r3 => r3.2.next_value))) =
      .ok (1, initial_sequencer) ∧
      initial_sequencer.next_value =
        .ok (4/5, { sequence := initial_sequencer.sequence, step := 1 })) := by
  refine ⟨fun s h => ?_, by rfl, by rfl⟩
  simp only [Sequencer.next_value, dif_pos h]
  rw [List.getD_eq_get _ _ h]

/-- Witness for C5 at the source's initial sequencer: step 0 is in bounds
and one advance returns the first multiplier and moves the step to 1. -/
theorem sequencer_advance_cycles_witness :
    initial_sequencer.step < initial_sequencer.sequence.length ∧
    initial_sequencer.next_value =
      .ok (initial_sequencer.sequence.getD initial_sequencer.step 0,
        { sequence := initial_sequencer.sequence,
          step := (initial_sequencer.step + 1) % initial_sequencer.sequence.length }) :=
  ⟨by decide, sequencer_advance_cycles.1 initial_sequencer (by decide)⟩

/-- C6: for the source's envelope parameters `attack = 0.1, decay = 1.0,
sustain = 0.4, release = 0.5` and any positive beat duration `B`, the ADSR
value at `beat_time = 0.05 · B` is exactly `0.5`, the midpoint of the linear
attack ramp. -/
theorem envelope_attack_midpoint (B : ℚ) (hB : 0 < B) :
    envelopeValue { attack := 1/10, decay := 1, sustain := 2/5, release := 1/2 }
      B (B / 20) = 1/2 := by
  have h1 : B / 20 < B * (1/10) := by linarith
  simp only [envelopeValue]
  rw [if_pos h1]
  have h2 : B / 20 / (B * (1/10)) = 1/2 := by
    field_simp
    ring
  rw [h2]
  norm_num

/-- Witness for C6 at `B = 1/2` (the beat duration at the source's 120 bpm). -/
theorem envelope_attack_midpoint_witness :
    (0 : ℚ) < 1/2 ∧
    envelopeValue { attack := 1/10, decay := 1, sustain := 2/5, release := 1/2 }
      (1/2) (1/2 / 20) = 1/2 :=
  ⟨by norm_num, envelope_attack_midpoint (1/2) (by norm_num)⟩

/-- C7: for every envelope and every nonnegative beat time, the branch whose
divisor would be a zero-length phase is unreachable — the attack branch when
`attack = 0`, the decay branch when `decay = 0` (given the attack test
failed), the release branch when `release = 0` (given the decay test failed)
— so the checked computation never reports a division by zero and agrees
with `envelopeValue`; moreover with `attack = 0` and a nonempty decay phase
the value at the beat start is already 1 (instantaneous attack). -/
theorem envelope_zero_phase_safe (env : Envelope) (B t : ℚ) (ht : 0 ≤ t) :
    envelopeValueChecked env B t = some (envelopeValue env B t) ∧
    (env.attack = 0 → ¬(t < B * env.attack)) ∧
    (env.decay = 0 → ¬(t < B * env.attack) →
      ¬(t < B * (env.attack + env.decay))) ∧
    (env.release = 0 → ¬(t < B * (env.attack + env.decay)) →
      ¬(t < B * (env.attack + env.decay + env.release))) ∧
    (env.attack = 0 → 0 < B * env.decay → envelopeValue env B 0 = 1) := by
  refine ⟨?_, ?_, ?_, ?_, ?_⟩
  · have hmul1 : B * (env.attack + env.decay) = B * env.attack + B * env.decay :=
      mul_add B env.attack env.decay
    have hmul2 : B * (env.attack + env.decay + env.release)
        = B * (env.attack + env.decay) + B * env.release :=
      mul_add B (env.attack + env.decay) env.release
    simp only [envelopeValueChecked, envelopeValue]
    split_ifs <;> first | rfl | linarith
  · intro ha
    rw [ha, mul_zero]
    exact not_lt.mpr ht
  · intro hd h1
    rw [hd, add_zero]
    exact h1
  · intro hr h1
    rw [hr, add_zero]
    exact h1
  · intro ha hd
    simp only [envelopeValue, ha, mul_zero, zero_add]
    rw [if_neg (lt_irrefl 0), if_pos hd]
    ring

/-- Witness for C7 at `attack = 0`, `decay = 1`, `sustain = 2/5`,
`release = 1/2`, `B = 1`, `t = 0`: the checked computation succeeds and the
value at the beat start is 1. -/
theorem envelope_zero_phase_safe_witness :
    (0 : ℚ) ≤ 0 ∧
    envelopeValueChecked { attack := 0, decay := 1, sustain := 2/5, release := 1/2 } 1 0 =
      some (envelopeValue { attack := 0, decay := 1, sustain := 2/5, release := 1/2 } 1 0) ∧
    envelopeValue { attack := 0, decay := 1, sustain := 2/5, release := 1/2 } 1 0 = 1 :=
  ⟨le_refl 0,
    (envelope_zero_phase_safe { attack := 0, decay := 1, sustain := 2/5, release := 1/2 }
      1 0 (le_refl 0)).1,
    (envelope_zero_phase_safe { attack := 0, decay := 1, sustain := 2/5, release := 1/2 }
      1 0 (le_refl 0)).2.2.2.2 rfl (by norm_num)⟩

lemma except_bind_ok {ε α β : Type} (x : α) (f : α → Except ε β) :
    (Except.ok x : Except ε α) >>= f = f x := rfl

lemma except_bind_err {ε α β : Type} (e : ε) (f : α → Except ε β) :
    (Except.error e : Except ε α) >>= f = Except.error e := rfl

/-- Counterexample for C1: with the transport unavailable, the resolver does
not return normally — on the empty chain it already faults at the very first
send (`playing`), because the source unwraps the send result. -/
theorem send_failure_panics_cex :
    update_sound false 0 120 0 [] = Except.error "send failed" := by rfl

/-- C1 (amended): for every chain and every control-tick input, if the
transport is unavailable then every parameter-update send of the resolver
fails and the source's `.unwrap()` turns the first failure into a panic — the
command is not dropped silently and the fault is surfaced to the control
loop. -/
theorem send_failure_panics (hz_increment bpm beat_time : ℚ)
    (chain : List CardClass) :
    update_sound false hz_increment bpm beat_time chain
      = Except.error "send failed" := by
  simp only [update_sound, sendCmd, Bool.false_eq_true, if_false, except_bind_err]

/-- Counterexample for C2: a chain whose first sequencer card has an empty
sequence makes the resolver fault (index out of bounds) on a beat boundary —
it is not treated as "no sequencer active" and does not fall back to drift. -/
theorem empty_sequence_panics_cex :
    update_sound true 0 120 0 [CardClass.Sequencer { sequence := [], step := 0 }]
      = Except.error "index out of bounds" := by rfl

/-- C2 (amended): for every chain headed by a sequencer with an empty
sequence, resolution at a beat boundary (`beat_time = 0`) panics with an
out-of-bounds index inside `Sequencer::next_value`; the empty sequence is
not treated as an absent sequencer. -/
theorem empty_sequence_panics (hz_increment bpm : ℚ) (rest : List CardClass) :
    update_sound true hz_increment bpm 0
        (CardClass.Sequencer { sequence := [], step := 0 } :: rest)
      = Except.error "index out of bounds" := by
  simp only [update_sound, sendCmd, if_true, position, CardClass.isSequencer,
    if_pos, except_bind_ok, sequencerStage, List.get?, Sequencer.next_value,
    List.length_nil, Nat.lt_irrefl, dif_neg, not_false_iff, except_bind_err]

/-- C3 (against the spec-modelled delay; `update_delay` is absent from src/,
only a commented-out call site remains at main.rs line 539): each per-sample
step outputs `dry·(1−wet) + delayed·wet` with the delayed sample read from
the circular buffer, and writes `dry + delayed·feedback` back at the write
cursor; with `delay_time = 0` the delayed sample is the dry sample itself,
so the output is `dry·(1−wet) + dry·wet` for every wet value. -/
theorem delay_mix_formula (d : Delay) (sample_rate dry : ℚ)
    (h : d.delay_time = 0) :
    ((d.process sample_rate dry).1
        = dry * (1 - d.wet) + d.delayed sample_rate dry * d.wet ∧
      (d.process sample_rate dry).2.buffer
        = d.buffer.set d.write_index (dry + d.delayed sample_rate dry * d.feedback)) ∧
    (d.process sample_rate dry).1 = dry * (1 - d.wet) + dry * d.wet := by
  refine ⟨⟨rfl, rfl⟩, ?_⟩
  have hd : d.delayed sample_rate dry = dry := by
    simp [Delay.delayed, h]
  simp only [Delay.process, hd]

/-- Witness for C3 at a concrete zero-time delay node. -/
theorem delay_mix_formula_witness :
    (Delay.mk 0 (1/2) (1/3) [9, 9, 9] 1).delay_time = 0 ∧
    (Delay.process (Delay.mk 0 (1/2) (1/3) [9, 9, 9] 1) 44100 5).1
      = 5 * (1 - (1/3 : ℚ)) + 5 * (1/3 : ℚ) :=
  ⟨rfl, (delay_mix_formula (Delay.mk 0 (1/2) (1/3) [9, 9, 9] 1) 44100 5 rfl).2⟩

lemma stepPhase_mem_Ico (phase hz sr : ℚ) (h0 : 0 ≤ phase) (h1 : phase < 1)
    (hhz : 0 ≤ hz) (hle : hz ≤ sr) (hsr : 0 < sr) :
    0 ≤ stepPhase phase hz sr ∧ stepPhase phase hz sr < 1 := by
  have hratio0 : 0 ≤ hz / sr := div_nonneg hhz hsr.le
  have hratio1 : hz / sr ≤ 1 := (div_le_one hsr).mpr hle
  simp only [stepPhase]
  split_ifs with hw
  · exact ⟨by linarith, by linarith⟩
  · push_neg at hw
    exact ⟨by linarith, by linarith⟩

lemma renderFrames_phase_Ico (sine2pi : ℚ → ℚ) (hz sr vol : ℚ) (ch : Nat)
    (hhz : 0 ≤ hz) (hle : hz ≤ sr) (hsr : 0 < sr) :
    ∀ (n : Nat) (phase : ℚ), 0 ≤ phase → phase < 1 →
      0 ≤ (renderFrames sine2pi hz sr vol ch n phase).2 ∧
      (renderFrames sine2pi hz sr vol ch n phase).2 < 1 := by
  intro n
  induction n with
  | zero =>
    intro phase h0 h1
    exact ⟨h0, h1⟩
  | succ k ih =>
    intro phase h0 h1
    have hs := stepPhase_mem_Ico phase hz sr h0 h1 hhz hle hsr
    simpa only [renderFrames] using ih (stepPhase phase hz sr) hs.1 hs.2

lemma renderFrames_samples_bound (sine2pi : ℚ → ℚ) (hz sr vol : ℚ) (ch : Nat)
    (hs : ∀ x, |sine2pi x| ≤ 1) (hv0 : 0 ≤ vol) (hv1 : vol ≤ 1/2) :
    ∀ (n : Nat) (phase : ℚ) (frame : List ℚ),
      frame ∈ (renderFrames sine2pi hz sr vol ch n phase).1 →
      ∀ samp ∈ frame, |samp| ≤ 1/2 := by
  intro n
  induction n with
  | zero =>
    intro phase frame hf
    simp [renderFrames] at hf
  | succ k ih =>
    intro phase frame hf samp hsamp
    simp only [renderFrames, List.mem_cons] at hf
    rcases hf with hf | hf
    · subst hf
      obtain ⟨-, rfl⟩ := List.mem_replicate.mp hsamp
      have h1 := hs phase
      have h2 : |vol| = vol := abs_of_nonneg hv0
      rw [abs_mul, h2]
      have h3 := abs_nonneg (sine2pi phase)
      nlinarith
    · exact ih _ frame hf samp hsamp

lemma renderFrames_samples_zero (sine2pi : ℚ → ℚ) (hz sr : ℚ) (ch : Nat) :
    ∀ (n : Nat) (phase : ℚ) (frame : List ℚ),
      frame ∈ (renderFrames sine2pi hz sr 0 ch n phase).1 →
      ∀ samp ∈ frame, samp = 0 := by
  intro n
  induction n with
  | zero =>
    intro phase frame hf
    simp [renderFrames] at hf
  | succ k ih =>
    intro phase frame hf samp hsamp
    simp only [renderFrames, List.mem_cons] at hf
    rcases hf with hf | hf
    · subst hf
      obtain ⟨-, rfl⟩ := List.mem_replicate.mp hsamp
      exact mul_zero _
    · exact ih _ frame hf samp hsamp

lemma volume_mem (a : Audio) (h : 0 ≤ a.envelope) :
    0 ≤ a.volume ∧ a.volume ≤ 1/2 := by
  simp only [Audio.volume, max_volume]
  split_ifs
  · have hmin0 : 0 ≤ min a.envelope 1 := le_min h (by norm_num)
    have hmin1 : min a.envelope 1 ≤ 1 := min_le_right _ _
    constructor <;> nlinarith
  · norm_num

lemma position_isSome_any (p : CardClass → Bool) :
    ∀ chain : List CardClass, (position p chain).isSome = chain.any p := by
  intro chain
  induction chain with
  | nil => rfl
  | cons c rest ih =>
    simp only [position, List.any_cons]
    split_ifs with h
    · simp [h]
    · simp [h, ih]

/-- C8: on every successful resolution tick the first command pushed to the
bridge is `setPlaying b` with `b` true exactly when some oscillator card is
present in the chain; and a render callback whose state is not playing
writes only zero samples. -/
theorem playing_iff_oscillator :
    (∀ (hz_increment bpm beat_time : ℚ) (chain : List CardClass)
        (cmds : List Cmd) (chain2 : List CardClass),
      update_sound true hz_increment bpm beat_time chain
          = Except.ok (cmds, chain2) →
      cmds.head? = some (.setPlaying (chain.any (·.isOscillator)))) ∧
    (∀ (sine2pi : ℚ → ℚ) (a : Audio) (sr : ℚ) (n ch : Nat),
      a.playing = false →
      ∀ frame ∈ (audio sine2pi a sr n ch).1, ∀ samp ∈ frame, samp = 0) := by
  constructor
  · intro hz bpm bt chain cmds chain2 h
    rw [← position_isSome_any]
    unfold update_sound at h
    simp only [sendCmd, eq_self_iff_true, if_true, except_bind_ok] at h
    rcases hst : sequencerStage true hz bt chain (position (·.isSequencer) chain)
      with e | ⟨c2, chainX⟩
    · rw [hst, except_bind_err] at h
      exact absurd h (by simp)
    · rw [hst, except_bind_ok] at h
      rcases he : envelopeStage true (60 / bpm) bt chainX (position (·.isEnvelope) chain)
        with e | c3
      · rw [he, except_bind_err] at h
        exact absurd h (by simp)
      · rw [he, except_bind_ok] at h
        simp only [pure, Except.pure, Except.ok.injEq, Prod.mk.injEq] at h
        obtain ⟨h1, -⟩ := h
        rw [← h1]
        rfl
  · intro sine2pi a sr n ch hp frame hf samp hsamp
    have hv : a.volume = 0 := by simp [Audio.volume, hp]
    simp only [audio, hv] at hf
    exact renderFrames_samples_zero sine2pi a.hz sr ch n a.phase frame hf samp hsamp

/-- Witness for C8: a one-card oscillator chain resolves (off the beat
boundary) to the command list headed by `setPlaying true`; and a concrete
non-playing render writes a buffer of zeros. -/
theorem playing_iff_oscillator_witness :
    update_sound true 0 120 1 [CardClass.Oscillator]
      = Except.ok ([Cmd.setPlaying true, Cmd.incHz 0, Cmd.setEnvelope 1],
          [CardClass.Oscillator]) ∧
    [Cmd.setPlaying true, Cmd.incHz 0, Cmd.setEnvelope 1].head?
      = some (Cmd.setPlaying ([CardClass.Oscillator].any (·.isOscillator))) ∧
    (Audio.mk 0 440 false 1).playing = false ∧
    (∀ frame ∈ (audio (fun _ => 1) (Audio.mk 0 440 false 1) 2 2 1).1,
      ∀ samp ∈ frame, samp = 0) :=
  ⟨by rfl,
   playing_iff_oscillator.1 0 120 1 [CardClass.Oscillator] _ _ (by rfl),
   rfl,
   playing_iff_oscillator.2 (fun _ => 1) (Audio.mk 0 440 false 1) 2 2 1 rfl⟩

/-- C9: the oscillator phase invariant `0 ≤ phase < 1` is preserved by each
per-sample step of the render callback (given `0 ≤ hz ≤ sample_rate` and a
positive sample rate), and hence by the whole buffer render. -/
theorem phase_invariant_preserved :
    (∀ phase hz sr : ℚ, 0 ≤ phase → phase < 1 → 0 ≤ hz → hz ≤ sr → 0 < sr →
      0 ≤ stepPhase phase hz sr ∧ stepPhase phase hz sr < 1) ∧
    (∀ (sine2pi : ℚ → ℚ) (a : Audio) (sr : ℚ) (n ch : Nat),
      0 ≤ a.phase → a.phase < 1 → 0 ≤ a.hz → a.hz ≤ sr → 0 < sr →
      0 ≤ (audio sine2pi a sr n ch).2.phase ∧
        (audio sine2pi a sr n ch).2.phase < 1) := by
  constructor
  · intro phase hz sr h0 h1 hhz hle hsr
    exact stepPhase_mem_Ico phase hz sr h0 h1 hhz hle hsr
  · intro sine2pi a sr n ch h0 h1 hhz hle hsr
    simpa only [audio] using
      renderFrames_phase_Ico sine2pi a.hz sr a.volume ch hhz hle hsr n a.phase h0 h1

/-- Witness for C9: one step at `phase = 1/2`, `hz = 1`, `sample_rate = 2`
wraps to a value in `[0,1)`; a concrete three-frame render at 44100 Hz with
`hz = 440` keeps the exit phase in `[0,1)`. -/
theorem phase_invariant_preserved_witness :
    ((0 : ℚ) ≤ 1/2 ∧ (1 : ℚ) ≤ 2) ∧
    (0 ≤ stepPhase (1/2) 1 2 ∧ stepPhase (1/2) 1 2 < 1) ∧
    (0 ≤ (audio (fun _ => 1) (Audio.mk 0 440 true 1) 44100 3 2).2.phase ∧
      (audio (fun _ => 1) (Audio.mk 0 440 true 1) 44100 3 2).2.phase < 1) :=
  ⟨⟨by norm_num, by norm_num⟩,
   phase_invariant_preserved.1 (1/2) 1 2 (by norm_num) (by norm_num) (by norm_num)
     (by norm_num) (by norm_num),
   phase_invariant_preserved.2 (fun _ => 1) (Audio.mk 0 440 true 1) 44100 3 2
     (by decide) (by decide) (by decide) (by decide) (by decide)⟩

/-- C10: with a nonnegative envelope on entry (and the sine amplitude bounded
by 1), every sample the render callback writes to any channel has absolute
value at most `max_volume = 1/2`. -/
theorem output_amplitude_bound (sine2pi : ℚ → ℚ) (a : Audio) (sr : ℚ)
    (n ch : Nat) (henv : 0 ≤ a.envelope) (hs : ∀ x, |sine2pi x| ≤ 1) :
    ∀ frame ∈ (audio sine2pi a sr n ch).1, ∀ samp ∈ frame, |samp| ≤ 1/2 := by
  intro frame hf samp hsamp
  have hv := volume_mem a henv
  simp only [audio] at hf
  exact renderFrames_samples_bound sine2pi a.hz sr a.volume ch hs hv.1 hv.2
    n a.phase frame hf samp hsamp

/-- Witness for C10 at a concrete playing state with envelope 3 (clamped to
1 by the volume computation) and a constant unit sine. -/
theorem output_amplitude_bound_witness :
    (0 : ℚ) ≤ (Audio.mk 0 440 true 3).envelope ∧
    (∀ frame ∈ (audio (fun _ => 1) (Audio.mk 0 440 true 3) 2 2 1).1,
      ∀ samp ∈ frame, |samp| ≤ 1/2) :=
  ⟨by decide,
   output_amplitude_bound (fun _ => 1) (Audio.mk 0 440 true 3) 2 2 1 (by decide)
     (fun x => by simp)⟩
